import Mathlib

/- Verification development for `inferno/trainers/callbacks/logging/tensorboard.py`
   (class `TensorboardLogger`).  The Python source is shallowly embedded below:
   numpy/torch arrays become rose trees of rational entries, Python exceptions
   become an error sum type, and each method becomes a Lean function returning
   `Except`.  Methods that mutate `self` are modelled by explicit state passing;
   every error is raised before any mutation in the modelled methods, so an
   error result carries the (unchanged) state at the moment of the raise. -/

/-- Exceptions raised by the modelled code paths. -/
inductive PyErr where
  | valueError
  | typeError
  | keyError
  | notImplementedError
  | assertionError
  | runtimeError
deriving DecidableEq

/-- Numeric dtype of a tensor; only the float/integer distinction matters
(label tensors are integer class maps, see the spec glossary). -/
inductive Dtype where
  | float
  | int
deriving DecidableEq

/-- Model of a numpy/torch array: a finitely branching tree with rational
entries.  A well-formed (rectangular) array is one whose `shape` is `some _`. -/
inductive ND where
  | leaf : ℚ → ND
  | node : List ND → ND

/-- The sub-arrays obtained by iterating over the first axis (Python
iteration over a numpy array). -/
def ND.children : ND → List ND
  | .leaf _ => []
  | .node l => l

mutual

/-- The shape of a rectangular array, `none` for a ragged tree (which no real
numpy/torch tensor is).  An empty axis hides the shape of the further axes,
exactly as for nested Python lists. -/
def ND.shape : ND → Option (List ℕ)
  | .leaf _ => some []
  | .node [] => some [0]
  | .node (x :: xs) =>
    match ND.shape x with
    | none => none
    | some s => if ND.shapeAll s xs then some ((xs.length + 1) :: s) else none

/-- Whether every array in the list has the given shape. -/
def ND.shapeAll (s : List ℕ) : List ND → Bool
  | [] => true
  | y :: ys => (ND.shape y == some s) && ND.shapeAll s ys

end

/-- `array.ndim` of numpy. -/
def ND.ndim (nd : ND) : ℕ := (nd.shape.getD []).length

mutual

/-- All entries of the array, in row-major order. -/
def ND.elems : ND → List ℚ
  | .leaf q => [q]
  | .node l => ND.elemsList l

/-- Concatenated entries of a list of arrays. -/
def ND.elemsList : List ND → List ℚ
  | [] => []
  | x :: xs => ND.elems x ++ ND.elemsList xs

end

mutual

/-- Elementwise application of a scalar function (numpy broadcasting of
`array - c` and `array / c`). -/
def ND.map (f : ℚ → ℚ) : ND → ND
  | .leaf q => .leaf (f q)
  | .node l => .node (ND.mapList f l)

/-- Elementwise application over a list of arrays. -/
def ND.mapList (f : ℚ → ℚ) : List ND → List ND
  | [] => []
  | x :: xs => ND.map f x :: ND.mapList f xs

end

/-- Model of Python `enumerate` with a given start index. -/
def enumerate (start : ℕ) : List α → List (ℕ × α)
  | [] => []
  | x :: xs => (start, x) :: enumerate (start + 1) xs

/-- Model of `array.min()` on the flattened entries: numpy raises on an empty
reduction, modelled by `none`. -/
def npMin : List ℚ → Option ℚ
  | [] => none
  | x :: xs => some (xs.foldl min x)

/-- Model of `array.max()`, as `npMin`. -/
def npMax : List ℚ → Option ℚ
  | [] => none
  | x :: xs => some (xs.foldl max x)

/-- `TensorboardLogger._normalize_image`: subtract the minimum, then divide by
the new maximum when it is positive. -/
def normalize_image (image : ND) : Except PyErr ND :=
  match npMin image.elems with
  | none => .error .valueError
  | some m =>
    let normalized := image.map (fun x => x - m)
    match npMax normalized.elems with
    | none => .error .valueError
    | some maxval =>
      if maxval > 0 then .ok (normalized.map (fun x => x / maxval)) else .ok normalized

/-- A Python value reaching the logger: a tensor (with dtype), a list/tuple,
a plain number (`float`/`int`), a string, or any other object. -/
inductive PyVal where
  | tensor : Dtype → ND → PyVal
  | pylist : List PyVal → PyVal
  | num : ℚ → PyVal
  | str : String → PyVal
  | other : PyVal

/-- The mutable observation registry of the logger: the two sets
`_trainer_states_being_observed_while_training` and
`_trainer_states_being_observed_while_validating` (Python sets of strings). -/
structure ObsState where
  training : Finset String
  validating : Finset String
deriving DecidableEq

/-- The registry defaults installed by `__init__`. -/
def defaultObsState : ObsState :=
  ⟨{"training_loss", "training_error", "training_prediction", "training_inputs",
    "training_target", "learning_rate"},
   {"validation_error_averaged", "validation_loss_averaged"}⟩

/-- The `keyword_mapping.get` lookup at the top of `observe_state`. -/
def keyword_mapping_get (s : String) : Option String :=
  if s = "train" then some "training"
  else if s = "training" then some "training"
  else if s = "validation" then some "validating"
  else if s = "validating" then some "validating"
  else none

/-- `TensorboardLogger.observe_state`: validate the phase token, then the key
type, then add the key to the registry of the canonical phase.  An error
carries the registry at the moment of the raise (unchanged, since both
assertions precede the mutation). -/
def observe_state (s : ObsState) (key : PyVal) (observe_while : String) :
    Except (PyErr × ObsState) ObsState :=
  match keyword_mapping_get observe_while with
  | none => .error (.valueError, s)
  | some ow =>
    match key with
    | .str k =>
      if ow = "training" then .ok ⟨insert k s.training, s.validating⟩
      else if ow = "validating" then .ok ⟨s.training, insert k s.validating⟩
      else .error (.notImplementedError, s)
    | _ => .error (.typeError, s)

/-- `TensorboardLogger.unobserve_state`: no alias mapping and no key
validation; `set.remove` raises `KeyError` on an absent key (a non-string key
is never a member of these string sets). -/
def unobserve_state (s : ObsState) (key : PyVal) (observe_while : String) :
    Except (PyErr × ObsState) ObsState :=
  if observe_while = "training" then
    match key with
    | .str k =>
      if k ∈ s.training then .ok ⟨s.training.erase k, s.validating⟩
      else .error (.keyError, s)
    | _ => .error (.keyError, s)
  else if observe_while = "validating" then
    match key with
    | .str k =>
      if k ∈ s.validating then .ok ⟨s.training, s.validating.erase k⟩
      else .error (.keyError, s)
    | _ => .error (.keyError, s)
  else .error (.notImplementedError, s)

/-- The registry of one phase, for stating round-trip properties. -/
def registry_for (s : ObsState) (phase : String) : Finset String :=
  if phase = "training" then s.training else s.validating

/-- Modelled from the spec: `inferno.utils.torch_utils.is_image_tensor` is not
in the repository slice; the spec glossary defines an image tensor as an array
with batch, channel, height, width axes (4 axes). -/
def is_image_tensor : PyVal → Bool
  | .tensor _ nd => nd.ndim == 4
  | _ => false

/-- Modelled from the spec: a volume tensor has batch, channel, depth, height,
width axes (5 axes). -/
def is_volume_tensor : PyVal → Bool
  | .tensor _ nd => nd.ndim == 5
  | _ => false

/-- Modelled from the spec: an image or volume tensor (4 or 5 axes). -/
def is_image_or_volume_tensor : PyVal → Bool
  | .tensor _ nd => nd.ndim == 4 || nd.ndim == 5
  | _ => false

/-- Modelled from the spec: a scalar is a 0-dimensional numeric tensor. -/
def is_scalar_tensor : PyVal → Bool
  | .tensor _ nd => nd.ndim == 0
  | _ => false

/-- Modelled from the spec: a label map is an integer-class image/volume with
no channel axis (3 or 4 axes of integer dtype). -/
def is_label_image_or_volume_tensor : PyVal → Bool
  | .tensor d nd => d == .int && (nd.ndim == 3 || nd.ndim == 4)
  | _ => false

/-- Modelled from the spec: a 1-D vector tensor. -/
def is_vector_tensor : PyVal → Bool
  | .tensor _ nd => nd.ndim == 1
  | _ => false

/-- Modelled from the spec: `tu.is_tensor`. -/
def is_tensor : PyVal → Bool
  | .tensor _ _ => true
  | _ => false

/-- `isinstance(object_, (float, int))` in `log_object`. -/
def is_py_num : PyVal → Bool
  | .num _ => true
  | _ => false

/-- `TaggedImage` of the source: a pixel array paired with a display tag. -/
structure TaggedImage where
  array : ND
  tag : String

/-- An element of the list returned by `extract_images_from_batch`: a tagged
image when a base tag was supplied, otherwise the raw array. -/
inductive ExtractedImage where
  | tagged : TaggedImage → ExtractedImage
  | raw : ND → ExtractedImage

/-- `TensorboardLogger._tag_image`: build the hierarchical tag from the base
tag plus the optional segments, in order. -/
def tag_image (image : ND) (base_tag : String) (pfx : Option String)
    (instance_num channel_num slice_num : Option ℕ) : TaggedImage :=
  let tag := base_tag
  let tag := match pfx with
    | some p => base_tag ++ "/" ++ p
    | none => tag
  let tag := match instance_num with
    | some i => tag ++ "/instance_" ++ toString i
    | none => tag
  let tag := match channel_num with
    | some c => tag ++ "/channel_" ++ toString c
    | none => tag
  let tag := match slice_num with
    | some z => tag ++ "/slice_" ++ toString z
    | none => tag
  ⟨image, tag⟩

/-- A value of the `_config` dictionary: a string token, a single Python int,
or an explicit list/tuple of ints. -/
inductive IndexSpec where
  | str : String → IndexSpec
  | int : ℤ → IndexSpec
  | list : List ℤ → IndexSpec
deriving DecidableEq

/-- The `_config` dictionary built in `__init__`. -/
structure LoggerConfig where
  image_batch_indices : IndexSpec
  image_channel_indices : IndexSpec
  volume_z_indices : IndexSpec
deriving DecidableEq

/-- The constructor defaults: send all batch indices, all channel indices,
and the middle z slice. -/
def defaultConfig : LoggerConfig := ⟨.str "all", .str "all", .str "mid"⟩

/-- Resolution of the batch-index / channel-index selection in
`extract_images_from_batch` (the token "all" expands to the full range, a
single int becomes a singleton, a list passes through, anything else is
unimplemented). -/
def resolve_indices (spec : IndexSpec) (axis_len : ℕ) : Except PyErr (List ℤ) :=
  match spec with
  | .str s =>
    if s = "all" then .ok ((List.range axis_len).map (fun i => (i : ℤ)))
    else .error .notImplementedError
  | .list l => .ok l
  | .int i => .ok [i]

/-- Resolution of the z-slice selection, which additionally accepts the token
"mid" for the single central slice. -/
def resolve_z_indices (spec : IndexSpec) (z_len : ℕ) : Except PyErr (List ℤ) :=
  match spec with
  | .str s =>
    if s = "all" then .ok ((List.range z_len).map (fun i => (i : ℤ)))
    else if s = "mid" then .ok [((z_len / 2 : ℕ) : ℤ)]
    else .error .notImplementedError
  | .list l => .ok l
  | .int i => .ok [i]

/-- The per-element expression of the two extraction comprehensions:
`self._tag_image(...) if base_tag is not None else image`. -/
def mk_extracted (base_tag : Option String) (pfx : Option String) (image : ND)
    (instance_num channel_num : ℕ) (slice_num : Option ℕ) : ExtractedImage :=
  match base_tag with
  | some bt => .tagged (tag_image image bt pfx (some instance_num) (some channel_num) slice_num)
  | none => .raw image

mutual

/-- Model of Python string conversion of an array, used when the broken
list-of-batches branch formats an unpacked value into a tag. -/
def ND.reprStr : ND → String
  | .leaf q => toString q
  | .node l => "[" ++ ND.reprStrList l ++ "]"

/-- Comma-separated string conversion of a list of arrays. -/
def ND.reprStrList : List ND → String
  | [] => ""
  | [x] => ND.reprStr x
  | x :: y :: xs => ND.reprStr x ++ ", " ++ ND.reprStrList (y :: xs)

end

mutual

/-- Model of Python string conversion of an arbitrary value. -/
def pyFormat : PyVal → String
  | .tensor _ nd => nd.reprStr
  | .pylist l => "[" ++ pyFormatList l ++ "]"
  | .num q => toString q
  | .str s => s
  | .other => "object"

/-- Comma-separated string conversion of a list of values. -/
def pyFormatList : List PyVal → String
  | [] => ""
  | [x] => pyFormat x
  | x :: y :: xs => pyFormat x ++ ", " ++ pyFormatList (y :: xs)

end

/-- The tensor case of `TensorboardLogger.extract_images_from_batch`, split
out because the (broken) list branch re-enters it on unpacked tensors: check
the base-tag/prefix combination, classify the tensor as image or volume,
resolve the index selections from the configuration, and run the
corresponding comprehension over `enumerate`. -/
def extract_from_tensor_call (cfg : LoggerConfig) (dt : Dtype) (nd : ND)
    (base_tag : Option String) (pfx : Option String) : Except PyErr (List ExtractedImage) :=
  if base_tag = none ∧ pfx ≠ none then .error .valueError
  else
    let b := PyVal.tensor dt nd
    let batch_is_image := is_image_tensor b
    let batch_is_volume := is_volume_tensor b
    if batch_is_volume == batch_is_image then .error .assertionError
    else
      let sh := nd.shape.getD []
      match resolve_indices cfg.image_batch_indices (sh.getD 0 0) with
      | .error e => .error e
      | .ok batch_indices =>
        match resolve_indices cfg.image_channel_indices (sh.getD 1 0) with
        | .error e => .error e
        | .ok channel_indices =>
          if batch_is_image then
            .ok ((enumerate 0 nd.children).flatMap (fun p =>
              (enumerate 0 p.2.children).filterMap (fun q =>
                if batch_indices.contains (p.1 : ℤ) && channel_indices.contains (q.1 : ℤ) then
                  some (mk_extracted base_tag pfx q.2 p.1 q.1 none)
                else none)))
          else
            match resolve_z_indices cfg.volume_z_indices (sh.getD 2 0) with
            | .error e => .error e
            | .ok z_indices =>
              .ok ((enumerate 0 nd.children).flatMap (fun p =>
                (enumerate 0 p.2.children).flatMap (fun q =>
                  (enumerate 0 q.2.children).filterMap (fun r =>
                    if batch_indices.contains (p.1 : ℤ) && channel_indices.contains (q.1 : ℤ)
                        && z_indices.contains (r.1 : ℤ) then
                      some (mk_extracted base_tag pfx r.2 p.1 q.1 (some r.1))
                    else none))))

mutual

/-- `TensorboardLogger.extract_images_from_batch`.  The initial base-tag/
prefix assertion of the source is replicated into each branch so that the
tensor case can live in the standalone function above. -/
def extract_images_from_batch (cfg : LoggerConfig) (batch : PyVal)
    (base_tag : Option String) (pfx : Option String) : Except PyErr (List ExtractedImage) :=
  match batch with
  | .pylist l =>
    if base_tag = none ∧ pfx ≠ none then .error .valueError
    else extract_images_from_batch_over_list cfg l base_tag
  | .tensor dt nd => extract_from_tensor_call cfg dt nd base_tag pfx
  | _ =>
    if base_tag = none ∧ pfx ≠ none then .error .valueError
    -- a non-tensor is neither an image nor a volume tensor, so the
    -- classification assertion fails
    else .error .assertionError

/-- The list/tuple branch of `extract_images_from_batch`, which iterates
`for batch_num, _batch in batch` — unpacking each element of the list instead
of enumerating positions.  Unpacking a Python list succeeds exactly for
two-element lists; unpacking a tensor iterates its first axis and succeeds
exactly when that axis has extent two (a 0-d tensor is not iterable).
Numbers and other non-iterables fail to unpack; strings never occur inside
image batches and are modelled as non-iterables as well. -/
def extract_images_from_batch_over_list (cfg : LoggerConfig) (l : List PyVal)
    (base_tag : Option String) : Except PyErr (List ExtractedImage) :=
  match l with
  | [] => .ok []
  | .pylist [a, b] :: rest =>
    match extract_images_from_batch cfg b base_tag (some ("batch_" ++ pyFormat a)) with
    | .error e => .error e
    | .ok imgs =>
      match extract_images_from_batch_over_list cfg rest base_tag with
      | .error e => .error e
      | .ok more => .ok (imgs ++ more)
  | .tensor dt (.node [a, b]) :: rest =>
    match extract_from_tensor_call cfg dt b base_tag
        (some ("batch_" ++ pyFormat (.tensor dt a))) with
    | .error e => .error e
    | .ok imgs =>
      match extract_images_from_batch_over_list cfg rest base_tag with
      | .error e => .error e
      | .ok more => .ok (imgs ++ more)
  | .pylist _ :: _ => .error .valueError
  | .tensor _ (.node _) :: _ => .error .valueError
  | _ :: _ => .error .typeError

end

/-- Read a 1-D array as a list of entries (used to view a 3-D array as nested
lists for the axis transposition). -/
def ND.toRow : ND → Option (List ℚ)
  | .leaf _ => none
  | .node l => l.mapM (fun x => match x with | .leaf q => some q | .node _ => none)

/-- Read a 2-D array as a list of rows. -/
def ND.toMat : ND → Option (List (List ℚ))
  | .leaf _ => none
  | .node l => l.mapM ND.toRow

/-- Read a 3-D array as triply nested lists. -/
def ND.to3 : ND → Option (List (List (List ℚ)))
  | .leaf _ => none
  | .node l => l.mapM ND.toMat

/-- Build a 3-D array from triply nested lists. -/
def of3 (a : List (List (List ℚ))) : ND :=
  .node (a.map (fun m => .node (m.map (fun r => .node (r.map ND.leaf)))))

/-- `np.moveaxis(image, 0, 2)` on a 3-D array of shape (A,B,C): the result has
shape (B,C,A) with entry (b,c,a) read from (a,b,c). -/
def moveaxis_0_2 (x : List (List (List ℚ))) : List (List (List ℚ)) :=
  let d0 := x.length
  let d1 := (x.getD 0 []).length
  let d2 := ((x.getD 0 []).getD 0 []).length
  (List.range d1).map (fun b => (List.range d2).map (fun c => (List.range d0).map (fun a =>
    ((x.getD a []).getD b []).getD c 0)))

/-- `np.moveaxis(image, 2, 0)` on a 3-D array of shape (A,B,C): the result has
shape (C,A,B) with entry (c,a,b) read from (a,b,c). -/
def moveaxis_2_0 (x : List (List (List ℚ))) : List (List (List ℚ)) :=
  let d0 := x.length
  let d1 := (x.getD 0 []).length
  let d2 := ((x.getD 0 []).getD 0 []).length
  (List.range d2).map (fun c => (List.range d0).map (fun a => (List.range d1).map (fun b =>
    ((x.getD a []).getD b []).getD c 0)))

/-- `np.moveaxis(nd, 0, 2)` lifted to the array model; the fallback branch is
unreachable for the rectangular 3-D arrays this is applied to. -/
def ND.moveaxis02 (nd : ND) : ND :=
  match nd.to3 with
  | some a => of3 (moveaxis_0_2 a)
  | none => nd

/-- `np.moveaxis(nd, 2, 0)` lifted to the array model. -/
def ND.moveaxis20 (nd : ND) : ND :=
  match nd.to3 with
  | some a => of3 (moveaxis_2_0 a)
  | none => nd

mutual

/-- `image[..., None]`: append a trailing singleton axis. -/
def ND.expandLast : ND → ND
  | .leaf q => .node [.leaf q]
  | .node l => .node (ND.expandLastList l)

/-- `expandLast` mapped over a list of arrays. -/
def ND.expandLastList : List ND → List ND
  | [] => []
  | x :: xs => ND.expandLast x :: ND.expandLastList xs

end

/-- Model of Python `str.upper` on ASCII format tokens, written over the
character list so that it evaluates inside the kernel. -/
def pyUpper (s : String) : String := ⟨s.data.map Char.toUpper⟩

/-- `TensorboardLogger._order_image_axes`: reorder a 2-D or 3-D image into the
format required by tensorboardX.  Note that the branch for a 3-D CHW image
compares the target format against the token written in the source, which is
the misspelling HCW. -/
def order_image_axes (image : ND) (image_format : String) (target_format : String) :
    Except PyErr ND :=
  if image.ndim = 2 then
    if target_format = "CHW" then .ok (.node [image])
    else if target_format = "HWC" then .ok image.expandLast
    else .error .notImplementedError
  else if image.ndim = 3 ∧ pyUpper image_format = "CHW" then
    if target_format = "CHW" then .ok image
    else if target_format = "HCW" then .ok image.moveaxis02
    else .error .notImplementedError
  else if image.ndim = 3 ∧ pyUpper image_format = "HWC" then
    if target_format = "CHW" then .ok image.moveaxis20
    else if target_format = "HWC" then .ok image
    else .error .notImplementedError
  else .error .runtimeError

/-- The constant `TENSORBOARDX_IMAGE_FORMAT`. -/
def TENSORBOARDX_IMAGE_FORMAT : String := "CHW"

/-- The calls the logger makes on its collaborators: scalar and image writes
on the tensorboardX writer, and the non-fatal warning of `log_object`. -/
inductive Effect where
  | addScalar : String → ℚ → ℕ → Effect
  | addImage : String → ND → ℕ → Effect
  | warned : String → Effect

/-- The trainer state the logger reads: the current iteration count. -/
structure TrainerState where
  iteration_count : ℕ

/-- `pyu.is_maybe_list_of`, modelled from its use: the value satisfies the
predicate, or is a list/tuple whose members all do. -/
def is_maybe_list_of (p : PyVal → Bool) (v : PyVal) : Bool :=
  match v with
  | .pylist l => l.all p
  | _ => p v

/-- Modelled from the spec: `tu.unwrap(x.float(), extract_item=True)` reads
the single entry of a 0-dimensional tensor; the fallback is unreachable for
scalar tensors. -/
def tensor_item : ND → ℚ
  | .leaf q => q
  | .node _ => 0

/-- The scalar payload `log_object` forwards: the entry of a 0-d tensor, or
the float value of a plain number. -/
def py_scalar_value : PyVal → ℚ
  | .tensor _ nd => tensor_item nd
  | .num q => q
  | _ => 0

/-- `object_[:, None, ...]`: insert a singleton channel axis after the batch
axis (the leaf fallback is unreachable, the call site guards on 3 or 4
axes). -/
def add_channel_axis : ND → ND
  | .leaf q => .leaf q
  | .node l => .node (l.map (fun inst => .node [inst]))

/-- The body of the loop of `TensorboardLogger.log_images`.  The loop variable
`tag` of the source is rebound by every iteration (to the tagged image tag, or
to the previous tag extended with the position), so it is threaded through the
recursion. -/
def log_images_loop (tag : String) (image_num : ℕ) (images : List ExtractedImage)
    (step : ℕ) (image_format : String) : Except PyErr (List Effect) :=
  match images with
  | [] => .ok []
  | img :: rest =>
    let tag_and_array : String × ND :=
      match img with
      | .tagged ti => (ti.tag, ti.array)
      | .raw a => (tag ++ "/" ++ toString image_num, a)
    match order_image_axes tag_and_array.2 image_format TENSORBOARDX_IMAGE_FORMAT with
    | .error e => .error e
    | .ok ordered =>
      match normalize_image ordered with
      | .error e => .error e
      | .ok normalized =>
        match log_images_loop tag_and_array.1 (image_num + 1) rest step image_format with
        | .error e => .error e
        | .ok restEffects => .ok (.addImage tag_and_array.1 normalized step :: restEffects)

/-- `TensorboardLogger.log_images`: validate the source format token, then
write each image after axis reordering and normalization. -/
def log_images (tag : String) (images : List ExtractedImage) (step : ℕ)
    (image_format : String) : Except PyErr (List Effect) :=
  if pyUpper image_format = "CHW" ∨ pyUpper image_format = "HWC" then
    log_images_loop tag 0 images step image_format
  else .error .valueError

/-- `TensorboardLogger.log_image_or_volume_batch` (the caller passes the
current iteration count as the step, which is also the fallback of the
`step or ...` idiom). -/
def log_image_or_volume_batch (trainer : TrainerState) (cfg : LoggerConfig)
    (tag : String) (batch : PyVal) : Except PyErr (List Effect) :=
  if is_maybe_list_of is_image_or_volume_tensor batch then
    match extract_images_from_batch cfg batch (some tag) none with
    | .error e => .error e
    | .ok image_list => log_images tag image_list trainer.iteration_count "CHW"
  else .error .assertionError

mutual

/-- `TensorboardLogger.log_object`: recurse over lists with position-suffixed
tags, then classify the value — scalar tensor, plain number, label tensor,
image/volume tensor, vector — and forward it accordingly.  `log_histogram`
raises `NotImplementedError`; an unhandled tensor produces a non-fatal
warning. -/
def log_object (trainer : TrainerState) (cfg : LoggerConfig) (tag : String)
    (object_ : PyVal) (allow_scalar_logging allow_image_logging allow_histogram_logging : Bool) :
    Except PyErr (List Effect) :=
  match object_ with
  | .pylist l =>
    log_object_over_list trainer cfg tag 0 l
      allow_scalar_logging allow_image_logging allow_histogram_logging
  | o =>
    if is_scalar_tensor o && allow_scalar_logging then
      .ok [.addScalar tag (py_scalar_value o) trainer.iteration_count]
    else if is_py_num o && allow_scalar_logging then
      .ok [.addScalar tag (py_scalar_value o) trainer.iteration_count]
    else if is_label_image_or_volume_tensor o && allow_image_logging then
      match o with
      | .tensor dt nd => log_image_or_volume_batch trainer cfg tag (.tensor dt (add_channel_axis nd))
      | _ => .error .assertionError
    else if is_image_or_volume_tensor o then
      if allow_image_logging then log_image_or_volume_batch trainer cfg tag o
      else .ok []
    else if is_vector_tensor o && allow_histogram_logging then
      -- `log_histogram` is unimplemented and raises
      .error .notImplementedError
    else if is_tensor o then .ok [.warned tag]
    else .ok []

/-- The list branch of `log_object`: recurse elementwise, suffixing the tag
with the position. -/
def log_object_over_list (trainer : TrainerState) (cfg : LoggerConfig) (tag : String)
    (object_num : ℕ) (l : List PyVal)
    (allow_scalar_logging allow_image_logging allow_histogram_logging : Bool) :
    Except PyErr (List Effect) :=
  match l with
  | [] => .ok []
  | x :: rest =>
    match log_object trainer cfg (tag ++ "_" ++ toString object_num) x
        allow_scalar_logging allow_image_logging allow_histogram_logging with
    | .error e => .error e
    | .ok effects =>
      match log_object_over_list trainer cfg tag (object_num + 1) rest
          allow_scalar_logging allow_image_logging allow_histogram_logging with
      | .error e => .error e
      | .ok more => .ok (effects ++ more)

end

/-- The (i,c) image of an image batch, as selected by the extraction. -/
def image_at (nd : ND) (i c : ℕ) : ND :=
  (nd.children.getD i (.node [])).children.getD c (.node [])

/-- The (i,c,z) slice of a volume batch. -/
def slice_at (nd : ND) (i c z : ℕ) : ND :=
  ((nd.children.getD i (.node [])).children.getD c (.node [])).children.getD z (.node [])

/- ===================  Helper lemmas  =================== -/

mutual

theorem nd_map_eq_self (f : ℚ → ℚ) (h : ∀ x, f x = x) : (nd : ND) → nd.map f = nd
  | .leaf q => by simp only [ND.map, h]
  | .node l => by simp only [ND.map, ndList_map_eq_self f h l]

theorem ndList_map_eq_self (f : ℚ → ℚ) (h : ∀ x, f x = x) : (l : List ND) → ND.mapList f l = l
  | [] => by simp only [ND.mapList]
  | x :: xs => by
    simp only [ND.mapList, nd_map_eq_self f h x, ndList_map_eq_self f h xs]

end

theorem foldl_min_all_eq (a : ℚ) : (l : List ℚ) → (∀ y ∈ l, y = a) → l.foldl min a = a
  | [], _ => rfl
  | x :: xs, h => by
    have hx : x = a := h x (by simp)
    simp only [List.foldl_cons, hx, min_self]
    exact foldl_min_all_eq a xs (fun y hy => h y (by simp [hy]))

theorem foldl_max_all_eq (a : ℚ) : (l : List ℚ) → (∀ y ∈ l, y = a) → l.foldl max a = a
  | [], _ => rfl
  | x :: xs, h => by
    have hx : x = a := h x (by simp)
    simp only [List.foldl_cons, hx, max_self]
    exact foldl_max_all_eq a xs (fun y hy => h y (by simp [hy]))

theorem shapeAll_iff (s : List ℕ) : (l : List ND) →
    (ND.shapeAll s l = true ↔ ∀ y ∈ l, y.shape = some s)
  | [] => by simp [ND.shapeAll]
  | y :: ys => by
    simp [ND.shapeAll, shapeAll_iff s ys]

theorem shape_eq_cons {nd : ND} {n : ℕ} {s : List ℕ} (h : nd.shape = some (n :: s)) :
    ∃ l, nd = ND.node l ∧ l.length = n ∧ ∀ x ∈ l, x.shape = some s := by
  match nd with
  | .leaf q => simp [ND.shape] at h
  | .node [] =>
    simp only [ND.shape, Option.some.injEq] at h
    obtain ⟨hn, hs⟩ := List.cons_eq_cons.mp h
    exact ⟨[], rfl, by simp [hn], by simp⟩
  | .node (x :: xs) =>
    cases hx : ND.shape x with
    | none => simp [ND.shape, hx] at h
    | some s0 =>
      by_cases hall : ND.shapeAll s0 xs = true
      · simp only [ND.shape, hx, hall, if_true, Option.some.injEq] at h
        obtain ⟨hn, hs⟩ := List.cons_eq_cons.mp h
        refine ⟨x :: xs, rfl, by simp [hn], ?_⟩
        intro y hy
        rcases List.mem_cons.mp hy with hy | hy
        · rw [hy, hx, hs]
        · rw [(shapeAll_iff s0 xs).mp hall y hy, hs]
      · simp [ND.shape, hx, hall] at h

theorem shape_cons_pos {nd : ND} {n : ℕ} {s : List ℕ}
    (h : nd.shape = some (n :: s)) (hs : s ≠ []) : 0 < n := by
  match nd with
  | .leaf q => simp [ND.shape] at h
  | .node [] =>
    simp only [ND.shape, Option.some.injEq] at h
    obtain ⟨hn, hsnil⟩ := List.cons_eq_cons.mp h
    exact absurd hsnil.symm hs
  | .node (x :: xs) =>
    cases hx : ND.shape x with
    | none => simp [ND.shape, hx] at h
    | some s0 =>
      by_cases hall : ND.shapeAll s0 xs = true
      · simp only [ND.shape, hx, hall, if_true, Option.some.injEq] at h
        obtain ⟨hn, _⟩ := List.cons_eq_cons.mp h
        omega
      · simp [ND.shape, hx, hall] at h

theorem enumerate_eq_range_map {α : Type} (d : α) : (l : List α) → (s : ℕ) →
    enumerate s l = (List.range l.length).map (fun k => (s + k, l.getD k d))
  | [], s => by simp [enumerate]
  | x :: xs, s => by
    rw [enumerate, enumerate_eq_range_map d xs (s + 1)]
    simp only [List.length_cons, List.range_succ_eq_map, List.map_cons, List.map_map]
    refine congrArg₂ _ (by simp) ?_
    refine List.map_congr_left ?_
    intro k _
    simp [Function.comp]
    omega

theorem rangeInt_contains {n i : ℕ} :
    ((List.range n).map (fun k => (k : ℤ))).contains (i : ℤ) = true ↔ i < n := by
  show ((List.range n).map (fun k => (k : ℤ))).elem (i : ℤ) = true ↔ i < n
  rw [List.elem_eq_mem]
  simp

theorem filterMap_eq_map_of_some {α β : Type} (f : α → Option β) (g : α → β) :
    (l : List α) → (∀ a ∈ l, f a = some (g a)) → l.filterMap f = l.map g
  | [], _ => rfl
  | x :: xs, h => by
    rw [List.filterMap_cons, h x (by simp), List.map_cons,
      filterMap_eq_map_of_some f g xs (fun a ha => h a (by simp [ha]))]

theorem flatMap_congr_mem {α β : Type} (f g : α → List β) :
    (l : List α) → (∀ a ∈ l, f a = g a) → l.flatMap f = l.flatMap g
  | [], _ => rfl
  | x :: xs, h => by
    rw [List.flatMap_cons, List.flatMap_cons, h x (by simp),
      flatMap_congr_mem f g xs (fun a ha => h a (by simp [ha]))]

theorem filterMap_congr_mem {α β : Type} (f g : α → Option β) :
    (l : List α) → (∀ a ∈ l, f a = g a) → l.filterMap f = l.filterMap g
  | [], _ => rfl
  | x :: xs, h => by
    rw [List.filterMap_cons, List.filterMap_cons, h x (by simp),
      filterMap_congr_mem f g xs (fun a ha => h a (by simp [ha]))]

theorem range_filterMap_single {β : Type} (g : ℕ → β) : (Z j : ℕ) → j < Z →
    (List.range Z).filterMap (fun k => if k = j then some (g k) else none) = [g j]
  | 0, j, h => absurd h (Nat.not_lt_zero j)
  | Z + 1, j, h => by
    rw [List.range_succ, List.filterMap_append]
    rcases Nat.lt_succ_iff_lt_or_eq.mp h with hlt | heq
    · rw [range_filterMap_single g Z j hlt]
      have hone : List.filterMap (fun k => if k = j then some (g k) else none) [Z] = [] := by
        simp only [List.filterMap_cons, List.filterMap_nil]
        rw [if_neg (by omega)]
      rw [hone, List.append_nil]
    · subst heq
      have hz : (List.range j).filterMap (fun k => if k = j then some (g k) else none) = [] := by
        rw [List.filterMap_eq_nil_iff]
        intro a ha
        rw [if_neg (by have := List.mem_range.mp ha; omega)]
      rw [hz, List.nil_append]
      simp

/- ===================  Claim theorems  =================== -/

/-- Claim C7: pixel normalization is idempotent on already-normalized inputs.
For every image array whose minimum is 0 and whose maximum is 1,
`_normalize_image` returns the same image (exactly, in the rational model,
hence within any floating-point tolerance). -/
theorem normalize_image_idempotent_on_normalized (image : ND)
    (hmin : npMin image.elems = some 0) (hmax : npMax image.elems = some 1) :
    normalize_image image = .ok image := by
  have hid : image.map (fun x => x - 0) = image := nd_map_eq_self _ (fun x => sub_zero x) image
  simp only [normalize_image, hmin, hid, hmax]
  rw [if_pos one_pos, nd_map_eq_self _ (fun x => div_one x) image]

/-- Witness for C7 at a concrete 1-by-2 image with entries 0 and 1. -/
theorem normalize_image_idempotent_on_normalized_witness :
    normalize_image (ND.node [ND.node [ND.leaf 0, ND.leaf 1]]) =
      .ok (ND.node [ND.node [ND.leaf 0, ND.leaf 1]]) :=
  normalize_image_idempotent_on_normalized _
    (by norm_num [ND.elems, ND.elemsList, npMin, min_def])
    (by norm_num [ND.elems, ND.elemsList, npMax, max_def])

/-- Claim C8: normalizing an all-zero image does not raise — the division by
the maximum is guarded — and returns the all-zero image unchanged. -/
theorem normalize_image_all_zero (image : ND)
    (hne : image.elems ≠ []) (hzero : ∀ x ∈ image.elems, x = 0) :
    normalize_image image = .ok image := by
  obtain ⟨x, xs, hx⟩ : ∃ x xs, image.elems = x :: xs := by
    cases h : image.elems with
    | nil => exact absurd h hne
    | cons a as => exact ⟨a, as, rfl⟩
  have hx0 : x = 0 := hzero x (by simp [hx])
  have hxs : ∀ y ∈ xs, y = 0 := fun y hy => hzero y (by simp [hx, hy])
  have hmin : npMin image.elems = some 0 := by
    rw [hx]
    simp [npMin, hx0, foldl_min_all_eq 0 xs hxs]
  have hid : image.map (fun x => x - 0) = image := nd_map_eq_self _ (fun x => sub_zero x) image
  have hmax : npMax image.elems = some 0 := by
    rw [hx]
    simp [npMax, hx0, foldl_max_all_eq 0 xs hxs]
  simp only [normalize_image, hmin, hid, hmax]
  rw [if_neg (lt_irrefl 0)]

/-- Witness for C8 at a concrete all-zero 2-by-1 image. -/
theorem normalize_image_all_zero_witness :
    normalize_image (ND.node [ND.node [ND.leaf 0], ND.node [ND.leaf 0]]) =
      .ok (ND.node [ND.node [ND.leaf 0], ND.node [ND.leaf 0]]) :=
  normalize_image_all_zero _
    (by simp [ND.elems, ND.elemsList])
    (by simp [ND.elems, ND.elemsList])

/-- Claim C9: `observe_state` with a phase token outside
train/training/validation/validating, or with a non-string key, raises an
invalid-argument error (`ValueError` respectively `TypeError`) immediately,
leaving both registries unchanged (the error carries the unchanged state). -/
theorem observe_state_invalid_arguments (s : ObsState) (key : PyVal) (phase : String)
    (h : phase ∉ (["train", "training", "validation", "validating"] : List String) ∨
         ∀ k : String, key ≠ .str k) :
    observe_state s key phase = .error (.valueError, s) ∨
    observe_state s key phase = .error (.typeError, s) := by
  rcases h with h | h
  · left
    have hkm : keyword_mapping_get phase = none := by
      simp only [List.mem_cons, List.not_mem_nil, or_false, not_or] at h
      obtain ⟨h1, h2, h3, h4⟩ := h
      simp [keyword_mapping_get, h1, h2, h3, h4]
    simp [observe_state, hkm]
  · cases hkm : keyword_mapping_get phase with
    | none => left; simp [observe_state, hkm]
    | some ow =>
      right
      cases key with
      | str k => exact absurd rfl (h k)
      | tensor d nd => simp [observe_state, hkm]
      | pylist l => simp [observe_state, hkm]
      | num q => simp [observe_state, hkm]
      | other => simp [observe_state, hkm]

/-- Witness for C9 at the unknown phase token "sometimes". -/
theorem observe_state_invalid_arguments_witness :
    observe_state defaultObsState (.str "some_state") "sometimes" =
        .error (.valueError, defaultObsState) ∨
    observe_state defaultObsState (.str "some_state") "sometimes" =
        .error (.typeError, defaultObsState) :=
  observe_state_invalid_arguments defaultObsState (.str "some_state") "sometimes"
    (Or.inl (by decide))

/-- Claim C10: the phase aliases accepted by `observe_state` are rejected by
`unobserve_state` — for every key, unobserving with phase token "train" or
"validation" raises `NotImplementedError` and removes nothing (the error
carries the unchanged state), even though `observe_state` maps those aliases
onto the canonical phases and succeeds. -/
theorem unobserve_state_rejects_observe_aliases (s : ObsState) (key : PyVal) :
    unobserve_state s key "train" = .error (.notImplementedError, s) ∧
    unobserve_state s key "validation" = .error (.notImplementedError, s) ∧
    ∀ k : String,
      observe_state s (.str k) "train" = .ok ⟨insert k s.training, s.validating⟩ ∧
      observe_state s (.str k) "validation" = .ok ⟨s.training, insert k s.validating⟩ :=
  ⟨rfl, rfl, fun _ => ⟨rfl, rfl⟩⟩

/-- Claim C2 counterexample: observing an already-observed key (the default
registry contains "training_loss") is a set-insert no-op, but the following
unobserve removes the key, so the registry after the pair differs from its
state before the observe. -/
theorem observe_unobserve_on_default_key_changes_registry :
    observe_state defaultObsState (.str "training_loss") "training" = .ok defaultObsState ∧
    unobserve_state defaultObsState (.str "training_loss") "training" =
      .ok ⟨defaultObsState.training.erase "training_loss", defaultObsState.validating⟩ ∧
    defaultObsState.training.erase "training_loss" ≠ defaultObsState.training :=
  ⟨rfl, rfl, by decide⟩

/-- Claim C2 (amended): for every key NOT already observed for the phase and
every canonical phase token, `observe_state` followed by `unobserve_state` of
the same key restores the registry state exactly. -/
theorem observe_then_unobserve_roundtrip (s : ObsState) (key : String) (phase : String)
    (hphase : phase = "training" ∨ phase = "validating")
    (hkey : key ∉ registry_for s phase) :
    (observe_state s (.str key) phase).bind
      (fun s1 => unobserve_state s1 (.str key) phase) = .ok s := by
  rcases hphase with h | h <;> subst h
  · have hk : key ∉ s.training := by
      have : registry_for s "training" = s.training := by rw [registry_for, if_pos rfl]
      rwa [this] at hkey
    show unobserve_state ⟨insert key s.training, s.validating⟩ (.str key) "training" = .ok s
    unfold unobserve_state
    rw [if_pos rfl]
    simp only
    rw [if_pos (Finset.mem_insert_self key s.training), Finset.erase_insert hk]
  · have hk : key ∉ s.validating := by
      have : registry_for s "validating" = s.validating := by
        rw [registry_for, if_neg (by decide)]
      rwa [this] at hkey
    show unobserve_state ⟨s.training, insert key s.validating⟩ (.str key) "validating" = .ok s
    unfold unobserve_state
    rw [if_neg (by decide), if_pos rfl]
    simp only
    rw [if_pos (Finset.mem_insert_self key s.validating), Finset.erase_insert hk]

/-- Witness for the amended C2 at a fresh key on the default registry. -/
theorem observe_then_unobserve_roundtrip_witness :
    (observe_state defaultObsState (.str "brand_new_state") "training").bind
      (fun s1 => unobserve_state s1 (.str "brand_new_state") "training") =
      .ok defaultObsState :=
  observe_then_unobserve_roundtrip defaultObsState "brand_new_state" "training"
    (Or.inl rfl) (by decide)

/-- Claim C1 (code bug evidence): requesting the CHW-to-HWC conversion of a
3-D image raises `NotImplementedError`, because the source compares the
target format against the misspelled token HCW while its own comment says
the branch is for producing HWC; the CHW→HWC→CHW round trip of the claim is
therefore impossible through the HWC target token. -/
theorem order_image_axes_chw_to_hwc_raises :
    order_image_axes (ND.node [ND.node [ND.node [ND.leaf 1, ND.leaf 2]]]) "CHW" "HWC" =
      .error .notImplementedError := rfl

/-- Claim C3 (code bug evidence): the list-of-batches branch iterates
`for batch_num, _batch in batch`, unpacking each sub-batch instead of
enumerating positions; extracting from a singleton list holding one image
batch of shape (1,1,2,2) therefore raises `ValueError` (unpacking a
length-one first axis) instead of returning that sub-batch's images tagged
with the prefix batch_0. -/
theorem extract_images_from_list_of_batches_raises :
    extract_images_from_batch defaultConfig
      (.pylist [.tensor .float (.node [.node [.node [.node [.leaf 0, .leaf 0],
        .node [.leaf 0, .leaf 0]]]])])
      (some "x") none = .error .valueError := rfl

/-- Claim C6: for every scalar value (0-dimensional tensor or plain number)
and every tag, `log_object` with scalar logging allowed performs exactly one
scalar write, with that tag and with step equal to the trainer iteration
count. -/
theorem log_object_scalar_single_write (trainer : TrainerState) (cfg : LoggerConfig)
    (tag : String) (object_ : PyVal) (allow_image_logging allow_histogram_logging : Bool)
    (h : is_scalar_tensor object_ = true ∨ is_py_num object_ = true) :
    log_object trainer cfg tag object_ true allow_image_logging allow_histogram_logging =
      .ok [.addScalar tag (py_scalar_value object_) trainer.iteration_count] := by
  rcases h with h | h
  · cases object_ with
    | tensor d nd => simp [log_object, h]
    | pylist l => simp [is_scalar_tensor] at h
    | num q => simp [is_scalar_tensor] at h
    | str t => simp [is_scalar_tensor] at h
    | other => simp [is_scalar_tensor] at h
  · cases object_ with
    | num q => simp [log_object, is_scalar_tensor, is_py_num]
    | pylist l => simp [is_py_num] at h
    | tensor d nd => simp [is_py_num] at h
    | str t => simp [is_py_num] at h
    | other => simp [is_py_num] at h

/-- Witness for C6: a plain number 42 at iteration 5 under the tag
"training_loss" produces exactly the one scalar write (42, step 5). -/
theorem log_object_scalar_single_write_witness :
    log_object ⟨5⟩ defaultConfig "training_loss" (.num 42) true true true =
      .ok [.addScalar "training_loss" 42 5] := by
  simpa [py_scalar_value, tensor_item] using
    log_object_scalar_single_write ⟨5⟩ defaultConfig "training_loss" (.num 42) true true
      (Or.inr rfl)

/-- Claim C4: for every image batch of shape (N, C, H, W), with batch-index
and channel-index selection both "all" and a base tag supplied, the extractor
returns exactly the N*C tagged images indexed by the pairs of
`List.range N ×ˢ List.range C` — each tag carrying its pair as the
instance/channel segments — the returned list has length N*C, and the pair
list is duplicate-free, so the (instance, channel) pair encoded in each tag
is distinct across the returned list. -/
theorem extract_image_batch_all_distinct (cfg : LoggerConfig)
    (hb : cfg.image_batch_indices = .str "all")
    (hc : cfg.image_channel_indices = .str "all")
    (dt : Dtype) (nd : ND) (N C H W : ℕ)
    (hshape : nd.shape = some [N, C, H, W]) (bt : String) :
    extract_images_from_batch cfg (.tensor dt nd) (some bt) none =
      .ok ((List.range N ×ˢ List.range C).map (fun p =>
        ExtractedImage.tagged (tag_image (image_at nd p.1 p.2) bt none (some p.1) (some p.2) none))) ∧
    ((List.range N ×ˢ List.range C).map (fun p =>
        ExtractedImage.tagged (tag_image (image_at nd p.1 p.2) bt none (some p.1) (some p.2) none))).length
      = N * C ∧
    (List.range N ×ˢ List.range C).Nodup := by
  refine ⟨?_, ?_, ?_⟩
  case refine_2 =>
    rw [List.length_map, List.length_product, List.length_range, List.length_range]
  case refine_3 =>
    exact List.Nodup.product (List.nodup_range _) (List.nodup_range _)
  obtain ⟨l, rfl, hlen, hmem⟩ := shape_eq_cons hshape
  have hndim : (ND.node l).ndim = 4 := by simp [ND.ndim, hshape]
  have hii : is_image_tensor (PyVal.tensor dt (ND.node l)) = true := by
    simp [is_image_tensor, hndim]
  have hiv : is_volume_tensor (PyVal.tensor dt (ND.node l)) = false := by
    simp [is_volume_tensor, hndim]
  show extract_from_tensor_call cfg dt (ND.node l) (some bt) none = _
  rw [extract_from_tensor_call]
  rw [if_neg (by simp)]
  have hres : ∀ n : ℕ, resolve_indices (.str "all") n =
      .ok ((List.range n).map (fun i => (i : ℤ))) := fun n => rfl
  have hsh0 : (((ND.node l).shape.getD []).getD 0 0) = N := by rw [hshape]; rfl
  have hsh1 : (((ND.node l).shape.getD []).getD 1 0) = C := by rw [hshape]; rfl
  simp only [hii, hiv, hsh0, hsh1, hb, hc, hres, show (false == true) = false from rfl,
    Bool.false_eq_true, if_false, eq_self_iff_true, if_true]
  refine congrArg Except.ok ?_
  rw [show (ND.node l).children = l from rfl]
  rw [enumerate_eq_range_map (ND.node []) l 0, hlen]
  rw [List.flatMap_map]
  rw [show List.range N ×ˢ List.range C =
    (List.range N).flatMap (fun i => (List.range C).map (Prod.mk i)) from rfl]
  rw [List.map_flatMap]
  apply flatMap_congr_mem
  intro i hi
  have hiN : i < N := List.mem_range.mp hi
  have hil : i < l.length := by omega
  have hinst_mem : l.getD i (ND.node []) ∈ l := by
    rw [List.getD_eq_getElem l _ hil]
    exact List.getElem_mem hil
  obtain ⟨l2, hinst, hl2len, hl2mem⟩ := shape_eq_cons (hmem _ hinst_mem)
  have hci : ((List.range N).map (fun k => (k : ℤ))).contains ((i : ℕ) : ℤ) = true :=
    rangeInt_contains.mpr hiN
  dsimp only
  rw [hinst]
  rw [show (ND.node l2).children = l2 from rfl]
  rw [enumerate_eq_range_map (ND.node []) l2 0, hl2len]
  rw [List.filterMap_map, List.map_map]
  simp only [Nat.zero_add]
  rw [filterMap_eq_map_of_some _
    (fun c => ExtractedImage.tagged
      (tag_image (l2.getD c (ND.node [])) bt none (some i) (some c) none)) _ ?hcond]
  case hcond =>
    intro c hc
    have hcC : ((List.range C).map (fun k => (k : ℤ))).contains ((c : ℕ) : ℤ) = true :=
      rangeInt_contains.mpr (List.mem_range.mp hc)
    simp only [Function.comp_apply, Nat.zero_add, hci, hcC, Bool.and_self, if_true,
      mk_extracted]
  apply List.map_congr_left
  intro c hc
  simp only [Function.comp_apply, image_at, ND.children, hinst]

/-- Membership in the singleton index list produced by the "mid" z-slice
selection. -/
theorem singleton_int_contains {j z : ℕ} :
    ([(j : ℤ)] : List ℤ).contains (z : ℤ) = true ↔ z = j := by
  show ([(j : ℤ)] : List ℤ).elem (z : ℤ) = true ↔ z = j
  rw [List.elem_eq_mem]
  simp

/-- Claim C5: for every volume batch of shape (N, C, Z, H, W), with z-slice
selection "mid" and batch/channel selection "all", the extractor returns
exactly N*C tagged images, one per (instance, channel) pair, each being the
slice at z index Z / 2 (floor division) with slice segment Z / 2 in its
tag. -/
theorem extract_volume_batch_mid_slice (cfg : LoggerConfig)
    (hb : cfg.image_batch_indices = .str "all")
    (hc : cfg.image_channel_indices = .str "all")
    (hz : cfg.volume_z_indices = .str "mid")
    (dt : Dtype) (nd : ND) (N C Z H W : ℕ)
    (hshape : nd.shape = some [N, C, Z, H, W]) (bt : String) :
    extract_images_from_batch cfg (.tensor dt nd) (some bt) none =
      .ok ((List.range N ×ˢ List.range C).map (fun p =>
        ExtractedImage.tagged (tag_image (slice_at nd p.1 p.2 (Z / 2)) bt none
          (some p.1) (some p.2) (some (Z / 2))))) ∧
    ((List.range N ×ˢ List.range C).map (fun p =>
        ExtractedImage.tagged (tag_image (slice_at nd p.1 p.2 (Z / 2)) bt none
          (some p.1) (some p.2) (some (Z / 2))))).length = N * C := by
  refine ⟨?_, ?_⟩
  case refine_2 =>
    rw [List.length_map, List.length_product, List.length_range, List.length_range]
  obtain ⟨l, rfl, hlen, hmem⟩ := shape_eq_cons hshape
  have hndim : (ND.node l).ndim = 5 := by simp [ND.ndim, hshape]
  have hii : is_image_tensor (PyVal.tensor dt (ND.node l)) = false := by
    simp [is_image_tensor, hndim]
  have hiv : is_volume_tensor (PyVal.tensor dt (ND.node l)) = true := by
    simp [is_volume_tensor, hndim]
  show extract_from_tensor_call cfg dt (ND.node l) (some bt) none = _
  rw [extract_from_tensor_call]
  rw [if_neg (by simp)]
  have hres : ∀ n : ℕ, resolve_indices (.str "all") n =
      .ok ((List.range n).map (fun i => (i : ℤ))) := fun n => rfl
  have hresz : resolve_z_indices (.str "mid") Z = .ok [((Z / 2 : ℕ) : ℤ)] := rfl
  have hsh0 : (((ND.node l).shape.getD []).getD 0 0) = N := by rw [hshape]; rfl
  have hsh1 : (((ND.node l).shape.getD []).getD 1 0) = C := by rw [hshape]; rfl
  have hsh2 : (((ND.node l).shape.getD []).getD 2 0) = Z := by rw [hshape]; rfl
  simp only [hii, hiv, hsh0, hsh1, hsh2, hb, hc, hz, hres, hresz,
    show (true == false) = false from rfl, Bool.false_eq_true, if_false]
  refine congrArg Except.ok ?_
  rw [show (ND.node l).children = l from rfl]
  rw [enumerate_eq_range_map (ND.node []) l 0, hlen]
  rw [List.flatMap_map]
  rw [show List.range N ×ˢ List.range C =
    (List.range N).flatMap (fun i => (List.range C).map (Prod.mk i)) from rfl]
  rw [List.map_flatMap]
  apply flatMap_congr_mem
  intro i hi
  have hiN : i < N := List.mem_range.mp hi
  have hil : i < l.length := by omega
  have hinst_mem : l.getD i (ND.node []) ∈ l := by
    rw [List.getD_eq_getElem l _ hil]
    exact List.getElem_mem hil
  obtain ⟨l2, hinst, hl2len, hl2mem⟩ := shape_eq_cons (hmem _ hinst_mem)
  have hci : ((List.range N).map (fun k => (k : ℤ))).contains ((i : ℕ) : ℤ) = true :=
    rangeInt_contains.mpr hiN
  dsimp only
  rw [hinst]
  rw [show (ND.node l2).children = l2 from rfl]
  rw [enumerate_eq_range_map (ND.node []) l2 0, hl2len]
  rw [List.flatMap_map]
  simp only [Nat.zero_add]
  refine Eq.trans (flatMap_congr_mem _
    (fun c => [ExtractedImage.tagged (tag_image (slice_at (ND.node l) i c (Z / 2)) bt none
      (some i) (some c) (some (Z / 2)))]) _ ?_) ?_
  · intro c hc
    have hcC : c < C := List.mem_range.mp hc
    have hcl2 : c < l2.length := by omega
    have hch_mem : l2.getD c (ND.node []) ∈ l2 := by
      rw [List.getD_eq_getElem l2 _ hcl2]
      exact List.getElem_mem hcl2
    obtain ⟨l3, hch, hl3len, hl3mem⟩ := shape_eq_cons (hl2mem _ hch_mem)
    have hZpos : 0 < Z := shape_cons_pos (hl2mem _ hch_mem) (by simp)
    have hcc : ((List.range C).map (fun k => (k : ℤ))).contains ((c : ℕ) : ℤ) = true :=
      rangeInt_contains.mpr hcC
    dsimp only
    rw [hch]
    rw [show (ND.node l3).children = l3 from rfl]
    rw [enumerate_eq_range_map (ND.node []) l3 0, hl3len]
    rw [List.filterMap_map]
    simp only [Nat.zero_add, hci, hcc, Bool.true_and]
    rw [filterMap_congr_mem _ (fun z => if z = Z / 2 then
        some (mk_extracted (some bt) none (l3.getD z (ND.node [])) i c (some z)) else none)
      _ ?hcond]
    case hcond =>
      intro z hzz
      simp only [Function.comp_apply]
      by_cases hz2 : z = Z / 2
      · rw [if_pos (singleton_int_contains.mpr hz2), if_pos hz2]
      · rw [if_neg (fun h => hz2 (singleton_int_contains.mp h)), if_neg hz2]
    rw [range_filterMap_single _ Z (Z / 2) (Nat.div_lt_self hZpos (by norm_num))]
    simp only [mk_extracted, slice_at, ND.children, hinst, hch]
  · rw [← List.map_eq_flatMap, List.map_map]
    apply List.map_congr_left
    intro c hc
    rfl


/-- Witness for C4 at a concrete image batch of shape (1,1,1,1). -/
theorem extract_image_batch_all_distinct_witness :
    extract_images_from_batch defaultConfig
        (.tensor .float (.node [.node [.node [.node [.leaf 0]]]])) (some "img") none =
      .ok ((List.range 1 ×ˢ List.range 1).map (fun p =>
        ExtractedImage.tagged (tag_image
          (image_at (.node [.node [.node [.node [.leaf 0]]]]) p.1 p.2)
          "img" none (some p.1) (some p.2) none))) ∧
    ((List.range 1 ×ˢ List.range 1).map (fun p =>
        ExtractedImage.tagged (tag_image
          (image_at (.node [.node [.node [.node [.leaf 0]]]]) p.1 p.2)
          "img" none (some p.1) (some p.2) none))).length = 1 * 1 ∧
    (List.range 1 ×ˢ List.range 1).Nodup :=
  extract_image_batch_all_distinct defaultConfig rfl rfl .float
    (.node [.node [.node [.node [.leaf 0]]]]) 1 1 1 1 rfl "img"

/-- Witness for C5 at a concrete volume batch of shape (1,1,1,1,1). -/
theorem extract_volume_batch_mid_slice_witness :
    extract_images_from_batch defaultConfig
        (.tensor .float (.node [.node [.node [.node [.node [.leaf 0]]]]])) (some "vol") none =
      .ok ((List.range 1 ×ˢ List.range 1).map (fun p =>
        ExtractedImage.tagged (tag_image
          (slice_at (.node [.node [.node [.node [.node [.leaf 0]]]]]) p.1 p.2 (1 / 2))
          "vol" none (some p.1) (some p.2) (some (1 / 2))))) ∧
    ((List.range 1 ×ˢ List.range 1).map (fun p =>
        ExtractedImage.tagged (tag_image
          (slice_at (.node [.node [.node [.node [.node [.leaf 0]]]]]) p.1 p.2 (1 / 2))
          "vol" none (some p.1) (some p.2) (some (1 / 2))))).length = 1 * 1 :=
  extract_volume_batch_mid_slice defaultConfig rfl rfl rfl .float
    (.node [.node [.node [.node [.node [.leaf 0]]]]]) 1 1 1 1 1 rfl "vol"
